import Mathlib

/-!
Verification of the IFCAtom backend (OpenBIMRAG) against its specification.

Shallow embedding of the core logic of:
  * `backend/ifc_parser.py`   — property extraction and durable artifact writing;
  * `backend/graph_builder.py` — relationship-graph construction over networkx;
  * `backend/app.py`          — multi-tier cache resolution (`process_single_ifc_file`),
                                the asynchronous parsing task state machine
                                (`parse_ifc_file_async`), and the batch extraction
                                endpoint (`extract_data`).

Python dictionaries keyed by strings are modelled as association lists with
update-or-append semantics (matching insertion-ordered `dict` /
`networkx` node and edge views).  Optional attributes (`getattr(x, a, d)`,
`hasattr`) are modelled with `Option`, where `none` stands for an attribute
that is missing or carries no usable value.  Pandas DataFrames are modelled
as lists of rows.  Logging (`print`) is modelled only where a claim refers
to it (the skip diagnostics of `extract_data`).
-/

namespace IFCAtom

/-- A heterogeneous scalar property value
(boolean / string / number / null) as carried in `PropertyValue`. -/
inductive PValue where
  | null
  | pBool (b : Bool)
  | pStr (s : String)
  | pInt (n : Int)
deriving DecidableEq, Repr

/-- One row of the extracted property table, with the column set produced by
`extract_properties_from_ifc` (`FileName`, `IFC_Entity`, `IFC_Name`,
`IFC_GlobalId`, `PropertySet`, `PropertyName`, `PropertyValue`). -/
structure PropRow where
  fileName : String
  entity : String
  name : Option String
  globalId : Option String
  pset : String
  propName : String
  propValue : PValue
deriving DecidableEq, Repr

/-- A property table (pandas DataFrame), as the list of its rows. -/
abbrev Table := List PropRow

/-- The `NominalValue` of a property: either a typed value object whose
`wrappedValue` is a primitive directly, or a typed value object whose
`wrappedValue` is itself another typed value object that must be
dereferenced one more level (the nested branch of the source). -/
inductive Wrapped where
  | val (v : PValue)
  | nested (v : PValue)
deriving DecidableEq, Repr

/-- One `IfcProperty` inside a property set: its `Name` attribute and its
`NominalValue` (`none` models a missing or `None` nominal value). -/
structure IfcProp where
  name : Option String
  nominalValue : Option Wrapped
deriving DecidableEq, Repr

/-- One `IfcPropertySet` attached to an element via
`IfcRelDefinesByProperties`.  Definition relations whose
`RelatingPropertyDefinition` is not an `IfcPropertySet` contribute no rows in
the source and are omitted from the model. -/
structure IfcPSet where
  name : Option String
  props : List IfcProp
deriving DecidableEq, Repr

/-- One `IfcElement` instance as seen by the property extractor. -/
structure IfcElem where
  entityType : String
  name : Option String
  globalId : Option String
  psets : List IfcPSet
deriving DecidableEq, Repr

/-- The opened IFC model as seen by the property extractor: the header file
name and the `IfcElement` instances. -/
structure IfcModel where
  headerFileName : Option String
  elements : List IfcElem
deriving DecidableEq, Repr

/-- An IFC file on disk.  `openResult = none` models a file that
`ifcopenshell.open` fails to open (unreadable / corrupt). -/
structure IfcFile where
  openResult : Option IfcModel
deriving DecidableEq, Repr

/-- `prop_value` computation of the source: take `wrappedValue` of the
`NominalValue` and, if that is again a typed value object, dereference one
more level; a missing nominal value degrades to null. -/
def derefNominal : Option Wrapped → PValue
  | none => PValue.null
  | some (.val v) => v
  | some (.nested v) => v

/-- The rows contributed by a single element: one row per
(property set, property) pair, as produced by the extraction loop. -/
def rowsOfElem (fn : String) (e : IfcElem) : Table :=
  e.psets.flatMap fun ps =>
    ps.props.map fun p =>
      { fileName := fn
        entity := e.entityType
        name := e.name
        globalId := e.globalId
        pset := ps.name.getD "Unknown"
        propName := p.name.getD "Unknown"
        propValue := derefNominal p.nominalValue }

/-- `ifc_parser.extract_properties_from_ifc`: open the file; on open failure
log and return an empty DataFrame; otherwise walk every `IfcElement`, its
property-set relations and their properties, and return the resulting table
tagged with the header file name (defaulting to "Unknown"). -/
def extract_properties_from_ifc (f : IfcFile) : Table :=
  match f.openResult with
  | none => []
  | some m => m.elements.flatMap (rowsOfElem (m.headerFileName.getD "Unknown"))

/-! ## Association-list maps (Python `dict` / networkx views) -/

/-- Lookup in an insertion-ordered keyed store. -/
def lookupK {κ α : Type} [DecidableEq κ] : List (κ × α) → κ → Option α
  | [], _ => none
  | (k, v) :: rest, key => if k = key then some v else lookupK rest key

/-- Update-or-append in an insertion-ordered keyed store (the semantics of
`dict` assignment and of networkx `add_node` / `add_edge`). -/
def setK {κ α : Type} [DecidableEq κ] : List (κ × α) → κ → α → List (κ × α)
  | [], key, v => [(key, v)]
  | (k, w) :: rest, key, v =>
      if k = key then (k, v) :: rest else (k, w) :: setK rest key v

/-! ## Cache Manager: `app.process_single_ifc_file` -/

/-- The per-file record held in `uploaded_files_metadata`. -/
structure FileInfo where
  saved_path : Option String
  original_filename : Option String
  processed_data_df : Option Table
  cached_df_path : Option String
deriving DecidableEq, Repr

/-- Durable state visible to the cache manager: the pickle cache
(`some t` = a readable pickle holding `t`; `none` = a file that exists but
whose `pd.read_pickle` raises) and the saved IFC files. -/
structure Disk where
  pickles : List (String × Option Table)
  ifc : List (String × IfcFile)
deriving DecidableEq, Repr

/-- The cache key derived from the file id:
`f"{file_id.replace(chr(45), chr(95))}_df.pkl"` joined onto the cache folder. -/
def cachePicklePath (cacheFolder fid : String) : String :=
  cacheFolder ++ "/" ++ (fid.replace "-" "_") ++ "_df.pkl"

/-- The value returned by `process_single_ifc_file`
(`(file_id, filename, df_properties)`) together with the mutations it
performed on the file record and the disk. -/
structure ResolveOut where
  fileId : String
  filename : String
  table : Table
  info : FileInfo
  disk : Disk
deriving DecidableEq, Repr

/-- Continuation of `process_single_ifc_file` after the disk-cache tier
produced nothing: try the in-memory DataFrame, then fresh extraction.
Fresh extraction attaches its result in memory and, when non-empty,
pickles it under the deterministic cache key; a missing saved path yields
an empty DataFrame. -/
def processAfterDiskMiss (fid filename : String) (info : FileInfo)
    (disk : Disk) (cacheFolder : String) : ResolveOut :=
  match info.processed_data_df with
  | some df => ⟨fid, filename, df, info, disk⟩
  | none =>
    match info.saved_path with
    | some fp =>
      if fp ≠ "" then
        match lookupK disk.ifc fp with
        | some f =>
          let parsed := extract_properties_from_ifc f
          let info1 := { info with processed_data_df := some parsed }
          if parsed.isEmpty then
            ⟨fid, filename, parsed, info1, disk⟩
          else
            let key := cachePicklePath cacheFolder fid
            ⟨fid, filename, parsed, { info1 with cached_df_path := some key },
              { disk with pickles := setK disk.pickles key (some parsed) }⟩
        | none => ⟨fid, filename, [], info, disk⟩
      else ⟨fid, filename, [], info, disk⟩
    | none => ⟨fid, filename, [], info, disk⟩

/-- `app.process_single_ifc_file`: resolve a file id to its property table.
First tier: if `cached_df_path` is set (truthy) and the pickle file exists,
try `pd.read_pickle`; on success attach the table in memory and return it;
on a read error fall through.  Remaining tiers in `processAfterDiskMiss`. -/
def process_single_ifc_file (fid : String) (info : FileInfo)
    (disk : Disk) (cacheFolder : String) : ResolveOut :=
  let filename := info.original_filename.getD "Unknown File"
  match info.cached_df_path with
  | some cp =>
    if cp ≠ "" then
      match lookupK disk.pickles cp with
      | some (some t) =>
          ⟨fid, filename, t, { info with processed_data_df := some t }, disk⟩
      | some none => processAfterDiskMiss fid filename info disk cacheFolder
      | none => processAfterDiskMiss fid filename info disk cacheFolder
    else processAfterDiskMiss fid filename info disk cacheFolder
  | none => processAfterDiskMiss fid filename info disk cacheFolder

/-- Tier 1 of the spec's `resolve`: what loading the persisted table for the
file id from durable storage produces (nothing when the path is unset, the
file is absent, or the read fails). -/
def tier1Persisted (info : FileInfo) (disk : Disk) : Option Table :=
  match info.cached_df_path with
  | none => none
  | some cp =>
    if cp ≠ "" then
      match lookupK disk.pickles cp with
      | some (some t) => some t
      | some none => none
      | none => none
    else none

/-- Tier 3 of the spec's `resolve`: the table a fresh invocation of the
Property Extractor produces for the file (empty when the saved path is
missing or the file is gone). -/
def tier3Fresh (info : FileInfo) (disk : Disk) : Table :=
  match info.saved_path with
  | some fp =>
    if fp ≠ "" then
      match lookupK disk.ifc fp with
      | some f => extract_properties_from_ifc f
      | none => []
    else []
  | none => []

/-- The spec's `resolve(fileId) -> Table`, written from the spec's words:
tiers tried in order persisted storage → in-memory table → fresh
extraction, each only if the prior produced nothing. -/
def resolveSpecTiers (info : FileInfo) (disk : Disk) : Table :=
  match tier1Persisted info disk with
  | some t => t
  | none =>
    match info.processed_data_df with
    | some m => m
    | none => tier3Fresh info disk

/-! ## Relationship Graph Builder: `graph_builder.build_graph_from_ifc` -/

/-- Node attributes set by `G.add_node` in the node-population phase. -/
structure NodeData where
  ifcType : String
  name : Option String
  description : Option String
  ifcId : Nat
deriving DecidableEq, Repr

/-- Edge attributes set by `G.add_edge` in `add_relationship_edge`. -/
structure EdgeData where
  relationType : String
  relationName : String
  ifcRelId : Nat
deriving DecidableEq, Repr

/-- A `networkx.DiGraph`: insertion-ordered node view keyed by node id, and
insertion-ordered edge view keyed by the ordered `(source, target)` pair.
`add_node` / `add_edge` on an existing key update its attributes in place. -/
structure DiGraph where
  nodes : List (String × NodeData)
  edges : List ((String × String) × EdgeData)
deriving DecidableEq, Repr

/-- `G.has_node`. -/
def DiGraph.has_node (G : DiGraph) (k : String) : Bool :=
  (lookupK G.nodes k).isSome

/-- `G.add_node` (update-or-append). -/
def DiGraph.add_node (G : DiGraph) (k : String) (d : NodeData) : DiGraph :=
  { G with nodes := setK G.nodes k d }

/-- `G.add_edge` (update-or-append on the ordered pair; a `DiGraph` holds at
most one edge per ordered pair of nodes). -/
def DiGraph.add_edge (G : DiGraph) (uv : String × String) (d : EdgeData) : DiGraph :=
  { G with edges := setK G.edges uv d }

/-- An `IfcProduct` instance considered for a node: its `GlobalId`
(`none` models a missing / `None` identifier), most-derived type tag
(`is_a()`), `Name`, `Description`, and numeric step id. -/
structure Product where
  globalId : Option String
  ifcType : String
  name : Option String
  description : Option String
  ifcId : Nat
deriving DecidableEq, Repr

/-- An entity referenced as a relationship endpoint; `globalId = none`
models an entity without a usable `GlobalId` attribute (the `hasattr`
guard of `add_relationship_edge`). -/
structure EntityRef where
  globalId : Option String
deriving DecidableEq, Repr

/-- One `IfcRelContainedInSpatialStructure` record. -/
structure ContainRel where
  relatingStructure : EntityRef
  relatedElements : List EntityRef
  relType : String
  name : Option String
  relId : Nat
deriving DecidableEq, Repr

/-- One `IfcRelAggregates` record. -/
structure AggRel where
  relatingObject : EntityRef
  relatedObjects : List EntityRef
  relType : String
  name : Option String
  relId : Nat
deriving DecidableEq, Repr

/-- One `IfcRelConnects` record; the `RelatingElement` / `RelatedElement`
attributes exist only on some subtypes (`hasattr` guard), hence `Option`. -/
structure ConnectRel where
  relatingElement : Option EntityRef
  relatedElement : Option EntityRef
  relType : String
  name : Option String
  relId : Nat
deriving DecidableEq, Repr

/-- One `IfcRelVoidsElement` record. -/
structure VoidRel where
  relatedOpeningElement : EntityRef
  relatingBuildingElement : EntityRef
  relType : String
  name : Option String
  relId : Nat
deriving DecidableEq, Repr

/-- One `IfcRelFillsElement` record. -/
structure FillRel where
  relatedBuildingElement : EntityRef
  relatingOpeningElement : EntityRef
  relType : String
  name : Option String
  relId : Nat
deriving DecidableEq, Repr

/-- The opened IFC model as seen by the graph builder: its `IfcProduct`
instances and the five relationship record lists returned by `by_type`. -/
structure GraphIfcModel where
  products : List Product
  containRels : List ContainRel
  aggRels : List AggRel
  connectRels : List ConnectRel
  voidRels : List VoidRel
  fillRels : List FillRel
deriving DecidableEq, Repr

/-- `add_relationship_edge`: skip when either endpoint lacks a `GlobalId`;
otherwise add the edge only when both endpoints are already nodes of `G`,
carrying the relationship's type tag, its `Name` (defaulting to the rule's
label), and its step id.  Returns the updated graph and whether an edge
was added. -/
def add_relationship_edge (G : DiGraph) (source target : EntityRef)
    (relType : String) (relName : Option String) (relId : Nat)
    (defaultLabel : String) : DiGraph × Bool :=
  match source.globalId, target.globalId with
  | some s, some t =>
    if G.has_node s && G.has_node t then
      (G.add_edge (s, t) ⟨relType, relName.getD defaultLabel, relId⟩, true)
    else (G, false)
  | _, _ => (G, false)

/-- Node-population phase of `build_graph_from_ifc`: one node per
`IfcProduct` carrying a non-empty `GlobalId`; others are skipped. -/
def addProductNodes (ps : List Product) : DiGraph :=
  ps.foldl
    (fun G p =>
      match p.globalId with
      | none => G
      | some gid => if gid = "" then G else G.add_node gid ⟨p.ifcType, p.name, p.description, p.ifcId⟩)
    ⟨[], []⟩

/-- Containment loop: for each `IfcRelContainedInSpatialStructure`, an edge
contained element → containing spatial structure, default label
"is_contained_in". -/
def containPhase (rels : List ContainRel) (G : DiGraph) : DiGraph :=
  rels.foldl
    (fun G rel =>
      rel.relatedElements.foldl
        (fun G e =>
          (add_relationship_edge G e rel.relatingStructure rel.relType rel.name rel.relId "is_contained_in").1)
        G)
    G

/-- Aggregation loop: for each `IfcRelAggregates`, an edge
constituent part → aggregate whole, default label "is_part_of". -/
def aggPhase (rels : List AggRel) (G : DiGraph) : DiGraph :=
  rels.foldl
    (fun G rel =>
      rel.relatedObjects.foldl
        (fun G part =>
          (add_relationship_edge G part rel.relatingObject rel.relType rel.name rel.relId "is_part_of").1)
        G)
    G

/-- Generic connection loop: for each `IfcRelConnects` carrying both
endpoint attributes, an edge relating element → related element, default
label "connects_to" (no reciprocal edge). -/
def connectPhase (rels : List ConnectRel) (G : DiGraph) : DiGraph :=
  rels.foldl
    (fun G rel =>
      match rel.relatingElement, rel.relatedElement with
      | some a, some b =>
          (add_relationship_edge G a b rel.relType rel.name rel.relId "connects_to").1
      | _, _ => G)
    G

/-- Void loop: for each `IfcRelVoidsElement`, an edge
opening → voided element, default label "voids_in_element". -/
def voidPhase (rels : List VoidRel) (G : DiGraph) : DiGraph :=
  rels.foldl
    (fun G rel =>
      (add_relationship_edge G rel.relatedOpeningElement rel.relatingBuildingElement rel.relType rel.name rel.relId "voids_in_element").1)
    G

/-- Fill loop: for each `IfcRelFillsElement`, an edge
filling element → filled opening, default label "fills_opening". -/
def fillPhase (rels : List FillRel) (G : DiGraph) : DiGraph :=
  rels.foldl
    (fun G rel =>
      (add_relationship_edge G rel.relatedBuildingElement rel.relatingOpeningElement rel.relType rel.name rel.relId "fills_opening").1)
    G

/-- `build_graph_from_ifc` on an opened model: populate the nodes, then add
edges for the five relationship kinds in the source's fixed order, each
through `add_relationship_edge` (elapsed-time measurement and logging
counters omitted). -/
def build_graph_from_ifc (m : GraphIfcModel) : DiGraph :=
  fillPhase m.fillRels
    (voidPhase m.voidRels
      (connectPhase m.connectRels
        (aggPhase m.aggRels
          (containPhase m.containRels
            (addProductNodes m.products)))))

/-- Both endpoints of every edge of `G` exist among the nodes of `G`. -/
def edgesOK (G : DiGraph) : Prop :=
  ∀ e ∈ G.edges, G.has_node e.1.1 = true ∧ G.has_node e.1.2 = true

/-! ## Artifact writing: `ifc_parser.parse_ifc_to_files` -/

/-- The set of artifact files existing on disk, as the list of their paths. -/
abbrev FS := List String

/-- Environment of one `parse_ifc_to_files` run: whether the output
directory already exists, and which of the fallible filesystem operations
raise (with, for a failed write, whether a partially written file is left
behind). -/
structure SaveEnv where
  dirExists : Bool
  mkdirFails : Bool
  csvWriteFails : Bool
  csvPartialLeft : Bool
  jsonWriteFails : Bool
  jsonPartialLeft : Bool
deriving DecidableEq, Repr

/-- The CSV artifact path: `os.path.join(output_dir, file_id + ".csv")`. -/
def csvArtifactPath (outputDir fid : String) : String :=
  outputDir ++ "/" ++ fid ++ ".csv"

/-- The JSON artifact path: `os.path.join(output_dir, file_id + ".json")`. -/
def jsonArtifactPath (outputDir fid : String) : String :=
  outputDir ++ "/" ++ fid ++ ".json"

/-- `os.remove` guarded by `os.path.exists`. -/
def fsRemove (fs : FS) (p : String) : FS := fs.filter (fun q => q ≠ p)

/-- A completed file write (creating or overwriting the file at `p`). -/
def fsAdd (fs : FS) (p : String) : FS := if p ∈ fs then fs else fs ++ [p]

/-- `ifc_parser.parse_ifc_to_files`: extract the properties; an empty table
produces no output files; otherwise ensure the output directory, write the
CSV then the JSON artifact, and on a write failure remove whichever
artifact files exist and report `(None, None)`.  Returns the pair of
artifact paths (or `(none, none)`) and the resulting filesystem. -/
def parse_ifc_to_files (f : IfcFile) (outputDir fid : String)
    (fs : FS) (env : SaveEnv) : (Option String × Option String) × FS :=
  let df := extract_properties_from_ifc f
  if df.isEmpty then ((none, none), fs)
  else if !env.dirExists && env.mkdirFails then ((none, none), fs)
  else
    let csvP := csvArtifactPath outputDir fid
    let jsonP := jsonArtifactPath outputDir fid
    if env.csvWriteFails then
      let fs1 := if env.csvPartialLeft then fsAdd fs csvP else fs
      ((none, none), fsRemove (fsRemove fs1 csvP) jsonP)
    else
      let fs1 := fsAdd fs csvP
      if env.jsonWriteFails then
        let fs2 := if env.jsonPartialLeft then fsAdd fs1 jsonP else fs1
        ((none, none), fsRemove (fsRemove fs2 csvP) jsonP)
      else ((some csvP, some jsonP), fsAdd fs1 jsonP)

/-! ## Task Orchestrator: `app.parse_ifc_file_async` and `parsing_status` -/

/-- The `status` field of a `parsing_status` entry. -/
inductive TStatus where
  | pending
  | processing
  | completed
  | failed
deriving DecidableEq, Repr

/-- One `parsing_status` entry: state, artifact locations (`result`), and
error message (metadata fields not touched by the state machine omitted). -/
structure TaskEntry where
  status : TStatus
  result : Option (String × String)
  errorMsg : Option String
deriving DecidableEq, Repr

/-- The entry registered at upload time: `pending`, no result, no error. -/
def initTaskEntry : TaskEntry := ⟨.pending, none, none⟩

/-- The outcome of the worker body: either the pair of artifact paths
returned by `parse_ifc_to_files`, or an exception message. -/
abbrev ParseOutcome := Except String (Option String × Option String)

/-- `os.path.relpath(p, backend_dir)`: an injective rewriting of the
produced artifact paths relative to the backend directory; none of the
verified properties depend on its exact form, so it is modelled as the
identity rewriting. -/
def relpathFromBackend (p : String) : String := p

/-- The status update at the start of `parse_ifc_file_async`. -/
def startTask (e : TaskEntry) : TaskEntry := { e with status := .processing }

/-- The tail of `parse_ifc_file_async`: if both artifact paths are truthy,
mark `completed` and record their locations; otherwise (missing output or
an exception) mark `failed` with an error message, leaving `result`
untouched. -/
def finishTask (e : TaskEntry) (outcome : ParseOutcome) : TaskEntry :=
  match outcome with
  | .ok (some c, some j) =>
    if c ≠ "" ∧ j ≠ "" then
      { e with status := .completed,
               result := some (relpathFromBackend c, relpathFromBackend j),
               errorMsg := none }
    else
      { e with status := .failed,
               errorMsg := some "Parsing completed but no output files were generated." }
  | .ok _ =>
      { e with status := .failed,
               errorMsg := some "Parsing completed but no output files were generated." }
  | .error msg => { e with status := .failed, errorMsg := some msg }

/-- `app.parse_ifc_file_async` acting on the task entry of its file id:
set `processing`, then record the outcome of `parse_ifc_to_files`. -/
def parse_ifc_file_async (e : TaskEntry) (outcome : ParseOutcome) : TaskEntry :=
  finishTask (startTask e) outcome

/-- The task states reachable for one file id: the entry registered at
upload, the entry after its (single) worker has set `processing`, and the
entry after that worker recorded its outcome.  Each file id gets a fresh
UUID and exactly one worker thread, started once at upload. -/
inductive ReachableTask : TaskEntry → Prop
  | uploaded : ReachableTask initTaskEntry
  | started : ReachableTask (startTask initTaskEntry)
  | finished (outcome : ParseOutcome) :
      ReachableTask (parse_ifc_file_async initTaskEntry outcome)

/-! ## Batch Coordinator: `app.extract_data` -/

/-- One row of the combined batch table: a property row plus the
`Source Model` column holding the originating file's display name. -/
structure TaggedRow where
  row : PropRow
  sourceModel : String
deriving DecidableEq, Repr

/-- Process-wide application state read by `extract_data`:
`parsing_status`, `uploaded_files_metadata`, and the disk. -/
structure AppState where
  parsingStatus : List (String × TaskEntry)
  filesMeta : List (String × FileInfo)
  disk : Disk
deriving DecidableEq, Repr

/-- The observable result of `extract_data`: whether a success response was
returned (`ok = false` is the 400 validation error), the combined data
rows, the contributing-file count, the ids skipped with a logged
diagnostic, and the final application state. -/
structure ExtractResult where
  ok : Bool
  data : List TaggedRow
  contributing : Nat
  skipped : List String
  finalState : AppState
deriving DecidableEq, Repr

/-- Eligibility-and-resolution pass of `extract_data` over one file id:
an id whose `parsing_status` entry is `completed` and whose metadata record
exists is resolved through `process_single_ifc_file` (updating the file
record and the disk); any other id is skipped with a logged diagnostic. -/
def extractDataStep (cacheFolder : String)
    (acc : List (String × String × Table) × List String × AppState)
    (fid : String) : List (String × String × Table) × List String × AppState :=
  let (res, skips, s) := acc
  match lookupK s.parsingStatus fid with
  | some entry =>
    if entry.status = .completed then
      match lookupK s.filesMeta fid with
      | some info =>
        let out := process_single_ifc_file fid info s.disk cacheFolder
        (res ++ [(fid, out.filename, out.table)], skips,
          { s with filesMeta := setK s.filesMeta fid out.info, disk := out.disk })
      | none => (res, skips ++ [fid], s)
    else (res, skips ++ [fid], s)
  | none => (res, skips ++ [fid], s)

/-- Combination pass of `extract_data`: drop empty per-file tables, tag each
remaining row with its file's display name, concatenate in input order, and
count the contributing files. -/
def combineResults (acc : List TaggedRow × Nat)
    (r : String × String × Table) : List TaggedRow × Nat :=
  if r.2.2.isEmpty then acc
  else (acc.1 ++ r.2.2.map (fun row => ⟨row, r.2.1⟩), acc.2 + 1)

/-- `app.extract_data` over the requested file ids (per-file work
linearised in input order; the thread pool consumes futures in submission
order).  An empty id list is rejected with a 400 response. -/
def extract_data (fids : List String) (st : AppState)
    (cacheFolder : String) : ExtractResult :=
  if fids.isEmpty then ⟨false, [], 0, [], st⟩
  else
    let (results, skips, st1) := fids.foldl (extractDataStep cacheFolder) ([], [], st)
    let (data, cnt) := results.foldl combineResults ([], 0)
    ⟨true, data, cnt, skips, st1⟩

/-! ## Concrete instances used by witnesses and counterexamples -/

/-- A file `ifcopenshell.open` cannot open. -/
def unreadableIfcFile : IfcFile := ⟨none⟩

/-- A file that opens fine but contains no elements: a legitimate zero-row
extraction. -/
def emptyElementsIfcFile : IfcFile := ⟨some ⟨some "empty.ifc", []⟩⟩

/-- A model with one wall carrying one property set with one property. -/
def sampleIfcModel : IfcModel :=
  ⟨some "sample.ifc",
   [⟨"IfcWall", some "Wall-1", some "WALLGUID1",
     [⟨some "Pset_WallCommon", [⟨some "IsExternal", some (.val (.pBool true))⟩]⟩]⟩]⟩

/-- The file holding `sampleIfcModel`. -/
def sampleIfcFile : IfcFile := ⟨some sampleIfcModel⟩

/-- An element product E1 with a non-empty global id. -/
def prodE1 : Product := ⟨some "E1GUID", "IfcWall", some "Wall E1", none, 1⟩

/-- A spatial-structure product S1 with a non-empty global id. -/
def prodS1 : Product := ⟨some "S1GUID", "IfcBuildingStorey", some "Level 1", none, 2⟩

/-- A model whose products are `e1` and `s1` and whose only relationship is
a single containment record stating that `e1` is contained in `s1`. -/
def singleContainModel (e1 s1 : Product) (relTypeTag : String)
    (relName : Option String) (relId : Nat) : GraphIfcModel :=
  ⟨[e1, s1], [⟨⟨s1.globalId⟩, [⟨e1.globalId⟩], relTypeTag, relName, relId⟩],
   [], [], [], []⟩

/-- First of two distinct containment records relating E1 to S1. -/
def dupContainRecordA : ContainRel :=
  ⟨⟨some "S1GUID"⟩, [⟨some "E1GUID"⟩], "IfcRelContainedInSpatialStructure", none, 101⟩

/-- Second of two distinct containment records relating the same ordered
pair E1 → S1 (a different step id, hence a different record). -/
def dupContainRecordB : ContainRel :=
  ⟨⟨some "S1GUID"⟩, [⟨some "E1GUID"⟩], "IfcRelContainedInSpatialStructure", none, 102⟩

/-- A model with two node-qualifying products and two distinct containment
records relating the same ordered pair of them. -/
def dupRelModel : GraphIfcModel :=
  ⟨[prodE1, prodS1], [dupContainRecordA, dupContainRecordB], [], [], [], []⟩

/-- The metadata record of the uploaded sample file, fresh after upload. -/
def sampleFileInfo : FileInfo :=
  ⟨some "uploads/sample.ifc", some "sample.ifc", none, none⟩

/-- A disk holding the uploaded sample file and an empty pickle cache. -/
def sampleDisk : Disk := ⟨[], [("uploads/sample.ifc", sampleIfcFile)]⟩

/-- An application state with one completed file id. -/
def sampleAppState : AppState :=
  ⟨[("id-A", ⟨.completed, some ("cache/id-A.csv", "cache/id-A.json"), none⟩)],
   [("id-A", sampleFileInfo)], sampleDisk⟩

/-! # Theorems

Shared helper lemmas first, then one theorem per claim (with its witness or
counterexample where required). -/

/-- Looking up the key just set returns the value just set. -/
theorem lookupK_setK_self {κ α : Type} [DecidableEq κ]
    (l : List (κ × α)) (k : κ) (v : α) :
    lookupK (setK l k v) k = some v := by
  induction l with
  | nil => simp [setK, lookupK]
  | cons hd tl ih =>
    obtain ⟨k1, v1⟩ := hd
    by_cases h : k1 = k
    · subst h; simp [setK, lookupK]
    · simp [setK, lookupK, h, ih]

/-- Every entry of an updated store is the new binding or an old entry. -/
theorem mem_setK {κ α : Type} [DecidableEq κ]
    (l : List (κ × α)) (k : κ) (v : α) :
    ∀ e ∈ setK l k v, e = (k, v) ∨ e ∈ l := by
  induction l with
  | nil => intro e he; simpa [setK] using he
  | cons hd tl ih =>
    obtain ⟨k1, v1⟩ := hd
    intro e he
    by_cases h : k1 = k
    · have hstep : setK ((k1, v1) :: tl) k v = (k1, v) :: tl := by simp [setK, h]
      rw [hstep] at he
      rcases List.mem_cons.mp he with h1 | h1
      · exact Or.inl (by rw [h1, h])
      · exact Or.inr (List.mem_cons_of_mem _ h1)
    · have hstep : setK ((k1, v1) :: tl) k v = (k1, v1) :: setK tl k v := by
        simp [setK, h]
      rw [hstep] at he
      rcases List.mem_cons.mp he with h1 | h1
      · exact Or.inr (by simp [h1])
      · rcases ih e h1 with h2 | h2
        · exact Or.inl h2
        · exact Or.inr (List.mem_cons_of_mem _ h2)

/-- Every key of an updated store is the set key or an old key. -/
theorem mem_keys_setK {κ α : Type} [DecidableEq κ]
    {l : List (κ × α)} {k : κ} {v : α} {a : κ}
    (ha : a ∈ (setK l k v).map Prod.fst) : a = k ∨ a ∈ l.map Prod.fst := by
  rcases List.mem_map.1 ha with ⟨e, he, rfl⟩
  rcases mem_setK l k v e he with h | h
  · exact Or.inl (by simp [h])
  · exact Or.inr (List.mem_map_of_mem _ h)

/-- Update-or-append preserves key distinctness. -/
theorem nodup_keys_setK {κ α : Type} [DecidableEq κ]
    {l : List (κ × α)} (k : κ) (v : α)
    (h : (l.map Prod.fst).Nodup) : ((setK l k v).map Prod.fst).Nodup := by
  induction l with
  | nil => simp [setK]
  | cons hd tl ih =>
    obtain ⟨k1, v1⟩ := hd
    by_cases hk : k1 = k
    · subst hk
      simpa [setK] using h
    · simp only [List.map_cons, List.nodup_cons] at h
      have h2 := ih h.2
      simp only [setK, if_neg hk, List.map_cons, List.nodup_cons]
      refine ⟨fun hmem => ?_, h2⟩
      rcases mem_keys_setK hmem with h3 | h3
      · exact hk h3
      · exact h.1 h3

/-- A graph step that leaves the node view unchanged, folded over a list,
leaves the node view unchanged. -/
theorem foldl_nodes_eq {α : Type} (step : DiGraph → α → DiGraph)
    (hn : ∀ G a, (step G a).nodes = G.nodes) :
    ∀ (l : List α) (G : DiGraph), (l.foldl step G).nodes = G.nodes := by
  intro l
  induction l with
  | nil => intro G; rfl
  | cons a tl ih => intro G; rw [List.foldl_cons, ih, hn]

/-- A graph step that leaves the edge view unchanged, folded over a list,
leaves the edge view unchanged. -/
theorem foldl_edges_eq {α : Type} (step : DiGraph → α → DiGraph)
    (hn : ∀ G a, (step G a).edges = G.edges) :
    ∀ (l : List α) (G : DiGraph), (l.foldl step G).edges = G.edges := by
  intro l
  induction l with
  | nil => intro G; rfl
  | cons a tl ih => intro G; rw [List.foldl_cons, ih, hn]

/-- A graph invariant preserved by a step is preserved by its fold. -/
theorem foldl_graph_inv {α : Type} (P : DiGraph → Prop)
    (step : DiGraph → α → DiGraph)
    (hstep : ∀ G a, P G → P (step G a)) :
    ∀ (l : List α) (G : DiGraph), P G → P (l.foldl step G) := by
  intro l
  induction l with
  | nil => intro G h; exact h
  | cons a tl ih => intro G h; exact ih _ (hstep G a h)

/-- `add_relationship_edge` never touches the node view. -/
theorem addRelEdge_nodes (G : DiGraph) (s t : EntityRef) (rt : String)
    (rn : Option String) (ri : Nat) (dl : String) :
    ((add_relationship_edge G s t rt rn ri dl).1).nodes = G.nodes := by
  unfold add_relationship_edge
  cases s.globalId with
  | none => rfl
  | some a =>
    cases t.globalId with
    | none => rfl
    | some b =>
      by_cases h : (G.has_node a && G.has_node b) = true
      · simp [h, DiGraph.add_edge]
      · simp [h]

/-- `add_relationship_edge` preserves the edges-have-their-nodes invariant:
it adds an edge only after checking both endpoints are nodes. -/
theorem addRelEdge_edgesOK (G : DiGraph) (s t : EntityRef) (rt : String)
    (rn : Option String) (ri : Nat) (dl : String)
    (h : edgesOK G) : edgesOK (add_relationship_edge G s t rt rn ri dl).1 := by
  cases hs : s.globalId with
  | none => unfold add_relationship_edge; rw [hs]; exact h
  | some a =>
    cases ht : t.globalId with
    | none => unfold add_relationship_edge; rw [hs, ht]; exact h
    | some b =>
      by_cases hab : (G.has_node a && G.has_node b) = true
      · have hG : (add_relationship_edge G s t rt rn ri dl).1 =
            G.add_edge (a, b) ⟨rt, rn.getD dl, ri⟩ := by
          unfold add_relationship_edge; rw [hs, ht]; simp [hab]
        rw [hG]
        intro e he
        rcases mem_setK G.edges (a, b) ⟨rt, rn.getD dl, ri⟩ e he with h1 | h1
        · rw [h1]
          rcases (Bool.and_eq_true _ _).mp hab with ⟨ha, hb⟩
          exact ⟨ha, hb⟩
        · exact h e h1
      · have hG : (add_relationship_edge G s t rt rn ri dl).1 = G := by
          unfold add_relationship_edge; rw [hs, ht]; simp [hab]
        rw [hG]; exact h

/-- `add_relationship_edge` preserves at-most-one-edge-per-ordered-pair
(the `DiGraph` update-or-append edge semantics). -/
theorem addRelEdge_keysNodup (G : DiGraph) (s t : EntityRef) (rt : String)
    (rn : Option String) (ri : Nat) (dl : String)
    (h : ((G.edges.map Prod.fst).Nodup)) :
    (((add_relationship_edge G s t rt rn ri dl).1).edges.map Prod.fst).Nodup := by
  cases hs : s.globalId with
  | none => unfold add_relationship_edge; rw [hs]; exact h
  | some a =>
    cases ht : t.globalId with
    | none => unfold add_relationship_edge; rw [hs, ht]; exact h
    | some b =>
      by_cases hab : (G.has_node a && G.has_node b) = true
      · have hG : (add_relationship_edge G s t rt rn ri dl).1 =
            G.add_edge (a, b) ⟨rt, rn.getD dl, ri⟩ := by
          unfold add_relationship_edge; rw [hs, ht]; simp [hab]
        rw [hG]
        exact nodup_keys_setK _ _ h
      · have hG : (add_relationship_edge G s t rt rn ri dl).1 = G := by
          unfold add_relationship_edge; rw [hs, ht]; simp [hab]
        rw [hG]; exact h

/-- The node-population step never touches the edge view. -/
theorem addProductNodes_edges (ps : List Product) :
    (addProductNodes ps).edges = [] := by
  unfold addProductNodes
  have hstep : ∀ (G : DiGraph) (p : Product),
      (match p.globalId with
        | none => G
        | some gid =>
            if gid = "" then G
            else G.add_node gid ⟨p.ifcType, p.name, p.description, p.ifcId⟩).edges
        = G.edges := by
    intro G p
    cases p.globalId with
    | none => rfl
    | some gid =>
      by_cases h : gid = ""
      · simp [h]
      · simp [h, DiGraph.add_node]
  exact foldl_edges_eq _ hstep ps ⟨[], []⟩

/-- All five edge phases leave the node view unchanged. -/
theorem containPhase_nodes (rels : List ContainRel) (G : DiGraph) :
    (containPhase rels G).nodes = G.nodes := by
  unfold containPhase
  apply foldl_nodes_eq
  intro G rel
  apply foldl_nodes_eq
  intro G e
  exact addRelEdge_nodes G e rel.relatingStructure _ _ _ _

/-- Aggregation phase: node view unchanged. -/
theorem aggPhase_nodes (rels : List AggRel) (G : DiGraph) :
    (aggPhase rels G).nodes = G.nodes := by
  unfold aggPhase
  apply foldl_nodes_eq
  intro G rel
  apply foldl_nodes_eq
  intro G part
  exact addRelEdge_nodes G part rel.relatingObject _ _ _ _

/-- Connection phase: node view unchanged. -/
theorem connectPhase_nodes (rels : List ConnectRel) (G : DiGraph) :
    (connectPhase rels G).nodes = G.nodes := by
  apply foldl_nodes_eq
  intro G rel
  cases rel.relatingElement with
  | none => rfl
  | some a =>
    cases rel.relatedElement with
    | none => rfl
    | some b => exact addRelEdge_nodes G a b _ _ _ _

/-- Void phase: node view unchanged. -/
theorem voidPhase_nodes (rels : List VoidRel) (G : DiGraph) :
    (voidPhase rels G).nodes = G.nodes := by
  unfold voidPhase
  apply foldl_nodes_eq
  intro G rel
  exact addRelEdge_nodes G rel.relatedOpeningElement rel.relatingBuildingElement _ _ _ _

/-- Fill phase: node view unchanged. -/
theorem fillPhase_nodes (rels : List FillRel) (G : DiGraph) :
    (fillPhase rels G).nodes = G.nodes := by
  unfold fillPhase
  apply foldl_nodes_eq
  intro G rel
  exact addRelEdge_nodes G rel.relatedBuildingElement rel.relatingOpeningElement _ _ _ _

/-- The built graph has exactly the nodes of the node-population phase. -/
theorem build_nodes_eq (m : GraphIfcModel) :
    (build_graph_from_ifc m).nodes = (addProductNodes m.products).nodes := by
  unfold build_graph_from_ifc
  rw [fillPhase_nodes, voidPhase_nodes, connectPhase_nodes, aggPhase_nodes,
    containPhase_nodes]

/-- Any invariant preserved by `add_relationship_edge` steps is preserved
by each of the five phases; specialised to `edgesOK`. -/
theorem containPhase_edgesOK (rels : List ContainRel) (G : DiGraph)
    (h : edgesOK G) : edgesOK (containPhase rels G) := by
  unfold containPhase
  refine foldl_graph_inv edgesOK _ ?_ rels G h
  intro G rel hG
  refine foldl_graph_inv edgesOK _ ?_ rel.relatedElements G hG
  intro G e hG2
  exact addRelEdge_edgesOK G e rel.relatingStructure _ _ _ _ hG2

/-- Aggregation phase preserves `edgesOK`. -/
theorem aggPhase_edgesOK (rels : List AggRel) (G : DiGraph)
    (h : edgesOK G) : edgesOK (aggPhase rels G) := by
  unfold aggPhase
  refine foldl_graph_inv edgesOK _ ?_ rels G h
  intro G rel hG
  refine foldl_graph_inv edgesOK _ ?_ rel.relatedObjects G hG
  intro G part hG2
  exact addRelEdge_edgesOK G part rel.relatingObject _ _ _ _ hG2

/-- Connection phase preserves `edgesOK`. -/
theorem connectPhase_edgesOK (rels : List ConnectRel) (G : DiGraph)
    (h : edgesOK G) : edgesOK (connectPhase rels G) := by
  refine foldl_graph_inv edgesOK _ ?_ rels G h
  intro G rel hG
  cases rel.relatingElement with
  | none => exact hG
  | some a =>
    cases rel.relatedElement with
    | none => exact hG
    | some b => exact addRelEdge_edgesOK G a b _ _ _ _ hG

/-- Void phase preserves `edgesOK`. -/
theorem voidPhase_edgesOK (rels : List VoidRel) (G : DiGraph)
    (h : edgesOK G) : edgesOK (voidPhase rels G) := by
  unfold voidPhase
  refine foldl_graph_inv edgesOK _ ?_ rels G h
  intro G rel hG
  exact addRelEdge_edgesOK G rel.relatedOpeningElement rel.relatingBuildingElement _ _ _ _ hG

/-- Fill phase preserves `edgesOK`. -/
theorem fillPhase_edgesOK (rels : List FillRel) (G : DiGraph)
    (h : edgesOK G) : edgesOK (fillPhase rels G) := by
  unfold fillPhase
  refine foldl_graph_inv edgesOK _ ?_ rels G h
  intro G rel hG
  exact addRelEdge_edgesOK G rel.relatedBuildingElement rel.relatingOpeningElement _ _ _ _ hG

/-- The built graph satisfies the edges-have-their-nodes invariant. -/
theorem build_edgesOK (m : GraphIfcModel) : edgesOK (build_graph_from_ifc m) := by
  unfold build_graph_from_ifc
  apply fillPhase_edgesOK
  apply voidPhase_edgesOK
  apply connectPhase_edgesOK
  apply aggPhase_edgesOK
  apply containPhase_edgesOK
  intro e he
  rw [addProductNodes_edges] at he
  cases he

/-- C4: for every GraphModel produced by build, both endpoints of every
edge exist as nodes of that same GraphModel (dangling edges are dropped by
the membership guard of `add_relationship_edge`), and the edge phases
create no node: the built graph has exactly the nodes of the
node-population phase. -/
theorem graph_edge_endpoints_are_nodes (m : GraphIfcModel)
    (e : (String × String) × EdgeData)
    (he : e ∈ (build_graph_from_ifc m).edges) :
    (build_graph_from_ifc m).has_node e.1.1 = true ∧
    (build_graph_from_ifc m).has_node e.1.2 = true ∧
    (build_graph_from_ifc m).nodes = (addProductNodes m.products).nodes := by
  rcases build_edgesOK m e he with ⟨h1, h2⟩
  exact ⟨h1, h2, build_nodes_eq m⟩

/-- Witness for C4 at a concrete model and edge. -/
theorem graph_edge_endpoints_are_nodes_witness :
    (build_graph_from_ifc dupRelModel).has_node
        ((("E1GUID", "S1GUID"),
          EdgeData.mk "IfcRelContainedInSpatialStructure" "is_contained_in" 102) :
          (String × String) × EdgeData).1.1 = true ∧
    (build_graph_from_ifc dupRelModel).has_node
        ((("E1GUID", "S1GUID"),
          EdgeData.mk "IfcRelContainedInSpatialStructure" "is_contained_in" 102) :
          (String × String) × EdgeData).1.2 = true ∧
    (build_graph_from_ifc dupRelModel).nodes =
      (addProductNodes dupRelModel.products).nodes :=
  graph_edge_endpoints_are_nodes dupRelModel
    (("E1GUID", "S1GUID"),
      EdgeData.mk "IfcRelContainedInSpatialStructure" "is_contained_in" 102)
    (by decide)

/-- C1, counterexample: two distinct containment records relating the same
ordered pair of node-qualifying elements yield ONE edge, not two — a
`DiGraph` merges duplicate edges (`add_edge` on an existing ordered pair
updates its attributes). -/
theorem duplicate_relationship_records_merged_cex :
    dupRelModel.containRels = [dupContainRecordA, dupContainRecordB] ∧
    dupContainRecordA ≠ dupContainRecordB ∧
    dupContainRecordA.relatedElements = dupContainRecordB.relatedElements ∧
    dupContainRecordA.relatingStructure = dupContainRecordB.relatingStructure ∧
    (build_graph_from_ifc dupRelModel).nodes.length = 2 ∧
    (build_graph_from_ifc dupRelModel).edges.length = 1 ∧
    (build_graph_from_ifc dupRelModel).edges =
      [(("E1GUID", "S1GUID"),
        ⟨"IfcRelContainedInSpatialStructure", "is_contained_in", 102⟩)] := by
  decide

/-- C1, amended: duplicate relationship records between the same ordered
pair of nodes are merged into a single edge — the built graph holds at
most one edge per ordered pair (the later record's attributes overwrite
the earlier). -/
theorem graph_at_most_one_edge_per_ordered_pair (m : GraphIfcModel) :
    ((build_graph_from_ifc m).edges.map Prod.fst).Nodup := by
  unfold build_graph_from_ifc
  have base : (((addProductNodes m.products).edges.map Prod.fst)).Nodup := by
    rw [addProductNodes_edges]; exact List.nodup_nil
  refine foldl_graph_inv (fun G => (G.edges.map Prod.fst).Nodup) _
    (fun G rel h => addRelEdge_keysNodup G rel.relatedBuildingElement
      rel.relatingOpeningElement _ _ _ _ h) m.fillRels _ ?_
  refine foldl_graph_inv (fun G => (G.edges.map Prod.fst).Nodup) _
    (fun G rel h => addRelEdge_keysNodup G rel.relatedOpeningElement
      rel.relatingBuildingElement _ _ _ _ h) m.voidRels _ ?_
  refine foldl_graph_inv (fun G => (G.edges.map Prod.fst).Nodup) _
    ?_ m.connectRels _ ?_
  · intro G rel h
    cases rel.relatingElement with
    | none => exact h
    | some a =>
      cases rel.relatedElement with
      | none => exact h
      | some b => exact addRelEdge_keysNodup G a b _ _ _ _ h
  refine foldl_graph_inv (fun G => (G.edges.map Prod.fst).Nodup) _
    ?_ m.aggRels _ ?_
  · intro G rel h
    refine foldl_graph_inv (fun G => (G.edges.map Prod.fst).Nodup) _
      (fun G part h2 => addRelEdge_keysNodup G part rel.relatingObject _ _ _ _ h2)
      rel.relatedObjects _ h
  refine foldl_graph_inv (fun G => (G.edges.map Prod.fst).Nodup) _
    ?_ m.containRels _ base
  intro G rel h
  refine foldl_graph_inv (fun G => (G.edges.map Prod.fst).Nodup) _
    (fun G e h2 => addRelEdge_keysNodup G e rel.relatingStructure _ _ _ _ h2)
    rel.relatedElements _ h

/-- C9: a model whose only relationship is one containment record stating
that element E1 (non-empty global id) is contained in spatial structure S1
(distinct non-empty global id) builds to a GraphModel with exactly 2 nodes
and exactly 1 edge, directed E1 → S1, labeled "is_contained_in" (the
record carrying no human label). -/
theorem single_containment_two_nodes_one_edge (e1 s1 : Product)
    (relT : String) (relId : Nat) (g1 g2 : String)
    (h1 : e1.globalId = some g1) (h2 : s1.globalId = some g2)
    (hg1 : g1 ≠ "") (hg2 : g2 ≠ "") (hne : g1 ≠ g2) :
    (build_graph_from_ifc (singleContainModel e1 s1 relT none relId)).nodes.length = 2 ∧
    (build_graph_from_ifc (singleContainModel e1 s1 relT none relId)).edges =
      [((g1, g2), ⟨relT, "is_contained_in", relId⟩)] := by
  unfold build_graph_from_ifc singleContainModel containPhase aggPhase
    connectPhase voidPhase fillPhase addProductNodes add_relationship_edge
  simp [h1, h2, hg1, hg2, hne, DiGraph.add_node, DiGraph.add_edge,
    DiGraph.has_node, lookupK, setK]

/-- Witness for C9 at concrete products E1 and S1. -/
theorem single_containment_two_nodes_one_edge_witness :
    (build_graph_from_ifc
        (singleContainModel prodE1 prodS1 "IfcRelContainedInSpatialStructure" none 77)).nodes.length = 2 ∧
    (build_graph_from_ifc
        (singleContainModel prodE1 prodS1 "IfcRelContainedInSpatialStructure" none 77)).edges =
      [(("E1GUID", "S1GUID"),
        ⟨"IfcRelContainedInSpatialStructure", "is_contained_in", 77⟩)] :=
  single_containment_two_nodes_one_edge prodE1 prodS1
    "IfcRelContainedInSpatialStructure" 77 "E1GUID" "S1GUID" rfl rfl
    (by decide) (by decide) (by decide)

/-- The deterministic cache key is never the empty (falsy) string. -/
theorem cachePicklePath_ne_empty (cf fid : String) : cachePicklePath cf fid ≠ "" := by
  unfold cachePicklePath
  intro h
  have h1 := congrArg String.length h
  simp [String.length_append] at h1
  exact absurd h1.2 (by decide)

/-- After the disk tier missed, the returned table is the in-memory
DataFrame if attached, else the fresh-extraction table. -/
theorem processAfterDiskMiss_table (fid fn : String) (info : FileInfo)
    (disk : Disk) (cf : String) :
    (processAfterDiskMiss fid fn info disk cf).table =
      match info.processed_data_df with
      | some m => m
      | none => tier3Fresh info disk := by
  unfold processAfterDiskMiss tier3Fresh
  cases info.processed_data_df with
  | some m => rfl
  | none =>
    cases info.saved_path with
    | none => rfl
    | some fp =>
      by_cases hfp : fp = ""
      · simp [hfp]
      · simp only [ne_eq, hfp, not_false_eq_true, if_true]
        cases lookupK disk.ifc fp with
        | none => rfl
        | some f =>
          by_cases hp : (extract_properties_from_ifc f).isEmpty
          · simp [hp]
          · simp [hp]

/-- Disk-tier hit: a set, non-empty cached path whose pickle reads back
gives that table, attaches it in memory, and changes nothing else. -/
theorem process_tier1_hit (fid : String) (info : FileInfo) (disk : Disk)
    (cf cp : String) (t : Table)
    (hc : info.cached_df_path = some cp) (hcp : cp ≠ "")
    (hl : lookupK disk.pickles cp = some (some t)) :
    process_single_ifc_file fid info disk cf =
      ⟨fid, info.original_filename.getD "Unknown File", t,
        { info with processed_data_df := some t }, disk⟩ := by
  unfold process_single_ifc_file
  rw [hc]
  simp [hcp, hl]

/-- Disk-tier miss: when the persisted tier produces nothing the call is
exactly the continuation `processAfterDiskMiss`. -/
theorem process_tier1_miss (fid : String) (info : FileInfo) (disk : Disk)
    (cf : String) (h : tier1Persisted info disk = none) :
    process_single_ifc_file fid info disk cf =
      processAfterDiskMiss fid (info.original_filename.getD "Unknown File")
        info disk cf := by
  unfold process_single_ifc_file
  unfold tier1Persisted at h
  rcases hc : info.cached_df_path with _ | cp
  · rfl
  · rw [hc] at h
    by_cases hcp : cp = ""
    · simp [hcp]
    · rcases hl : lookupK disk.pickles cp with _ | o
      · simp [hcp, hl]
      · cases o with
        | none => simp [hcp, hl]
        | some t => simp [hcp, hl] at h

/-- Inversion of a disk-tier hit. -/
theorem tier1_some_inv (info : FileInfo) (disk : Disk) (t : Table)
    (h : tier1Persisted info disk = some t) :
    ∃ cp, info.cached_df_path = some cp ∧ cp ≠ "" ∧
      lookupK disk.pickles cp = some (some t) := by
  unfold tier1Persisted at h
  rcases hc : info.cached_df_path with _ | cp
  · rw [hc] at h; cases h
  · rw [hc] at h
    by_cases hcp : cp = ""
    · simp [hcp] at h
    · refine ⟨cp, rfl, hcp, ?_⟩
      rcases hl : lookupK disk.pickles cp with _ | o
      · simp [hcp, hl] at h
      · cases o with
        | none => simp [hcp, hl] at h
        | some t2 =>
          simp [hcp, hl] at h
          rw [h]

/-- The disk tier only reads the cached path and the pickle store: it is
unaffected by attaching a DataFrame in memory. -/
theorem tier1_ignores_memory (info : FileInfo) (disk : Disk) (x : Option Table) :
    tier1Persisted { info with processed_data_df := x } disk =
      tier1Persisted info disk := rfl

/-- `process_single_ifc_file` returns exactly the table of the spec's
tiered `resolve` (persisted storage, then memory, then fresh extraction,
each tier only if the prior one produced nothing). -/
theorem process_table_eq_resolveSpecTiers (fid : String) (info : FileInfo)
    (disk : Disk) (cf : String) :
    (process_single_ifc_file fid info disk cf).table =
      resolveSpecTiers info disk := by
  rcases ht : tier1Persisted info disk with _ | t
  · rw [process_tier1_miss fid info disk cf ht, processAfterDiskMiss_table]
    unfold resolveSpecTiers
    rw [ht]
  · rcases tier1_some_inv info disk t ht with ⟨cp, hc, hcp, hl⟩
    rw [process_tier1_hit fid info disk cf cp t hc hcp hl]
    unfold resolveSpecTiers
    rw [ht]

/-- C5: for every file id, resolution consults its tiers strictly in the
order persisted storage → in-memory table → fresh extraction, each tier
only if the prior one produced nothing (a persisted-read failure is
non-fatal and falls through): the table returned by
`process_single_ifc_file` is exactly the table of the spec's tiered
`resolve`. -/
theorem resolve_consults_tiers_in_order (fid : String) (info : FileInfo)
    (disk : Disk) (cf : String) :
    (process_single_ifc_file fid info disk cf).table =
      resolveSpecTiers info disk :=
  process_table_eq_resolveSpecTiers fid info disk cf

/-- C6: two successive resolutions of the same file id, with no change to
the underlying IFC file in between, return identical tables — the second
call reproduces exactly the table the first call computed. -/
theorem resolve_idempotent_second_call_same_table (fid : String)
    (info : FileInfo) (disk : Disk) (cf : String) :
    (process_single_ifc_file fid
        (process_single_ifc_file fid info disk cf).info
        (process_single_ifc_file fid info disk cf).disk cf).table =
      (process_single_ifc_file fid info disk cf).table := by
  rcases ht : tier1Persisted info disk with _ | t
  · -- persisted tier produced nothing
    rw [process_tier1_miss fid info disk cf ht]
    rcases hm : info.processed_data_df with _ | m
    · -- no in-memory table either: fresh tier
      rcases hp : info.saved_path with _ | fp
      · have hout : processAfterDiskMiss fid
            (info.original_filename.getD "Unknown File") info disk cf =
            ⟨fid, info.original_filename.getD "Unknown File", [], info, disk⟩ := by
          unfold processAfterDiskMiss; rw [hm, hp]
        rw [hout]
        show (process_single_ifc_file fid info disk cf).table = ([] : Table)
        rw [process_tier1_miss fid info disk cf ht, hout]
      · by_cases hfp : fp = ""
        · have hout : processAfterDiskMiss fid
              (info.original_filename.getD "Unknown File") info disk cf =
              ⟨fid, info.original_filename.getD "Unknown File", [], info, disk⟩ := by
            unfold processAfterDiskMiss; rw [hm, hp]; simp [hfp]
          rw [hout]
          show (process_single_ifc_file fid info disk cf).table = ([] : Table)
          rw [process_tier1_miss fid info disk cf ht, hout]
        · rcases hfl : lookupK disk.ifc fp with _ | f
          · have hout : processAfterDiskMiss fid
                (info.original_filename.getD "Unknown File") info disk cf =
                ⟨fid, info.original_filename.getD "Unknown File", [], info, disk⟩ := by
              unfold processAfterDiskMiss; rw [hm, hp]; simp [hfp, hfl]
            rw [hout]
            show (process_single_ifc_file fid info disk cf).table = ([] : Table)
            rw [process_tier1_miss fid info disk cf ht, hout]
          · set q := extract_properties_from_ifc f with hq
            by_cases he : q.isEmpty
            · -- fresh extraction came back empty: memory attach only
              have hout : processAfterDiskMiss fid
                  (info.original_filename.getD "Unknown File") info disk cf =
                  ⟨fid, info.original_filename.getD "Unknown File", q,
                    { info with processed_data_df := some q }, disk⟩ := by
                unfold processAfterDiskMiss; rw [hm, hp]
                simp [hfp, hfl, ← hq, he]
              rw [hout]
              show (process_single_ifc_file fid
                  { info with processed_data_df := some q } disk cf).table = q
              rw [process_tier1_miss fid _ disk cf
                (by rw [tier1_ignores_memory]; exact ht)]
              have hout2 : processAfterDiskMiss fid
                  (({ info with processed_data_df := some q } :
                    FileInfo).original_filename.getD "Unknown File")
                  { info with processed_data_df := some q } disk cf =
                  ⟨fid, info.original_filename.getD "Unknown File", q,
                    { info with processed_data_df := some q }, disk⟩ := by
                unfold processAfterDiskMiss; rfl
              rw [hout2]
            · -- fresh extraction non-empty: memory attach and pickle write
              have hout : processAfterDiskMiss fid
                  (info.original_filename.getD "Unknown File") info disk cf =
                  ⟨fid, info.original_filename.getD "Unknown File", q,
                    { info with
                      processed_data_df := some q
                      cached_df_path := some (cachePicklePath cf fid) },
                    { disk with pickles := setK disk.pickles (cachePicklePath cf fid) (some q) }⟩ := by
                unfold processAfterDiskMiss; rw [hm, hp]
                simp [hfp, hfl, ← hq, he]
              rw [hout]
              show (process_single_ifc_file fid
                  { info with
                    processed_data_df := some q
                    cached_df_path := some (cachePicklePath cf fid) }
                  { disk with pickles := setK disk.pickles (cachePicklePath cf fid) (some q) }
                  cf).table = q
              rw [process_tier1_hit fid _ _ cf (cachePicklePath cf fid) q rfl
                (cachePicklePath_ne_empty cf fid)
                (lookupK_setK_self disk.pickles (cachePicklePath cf fid) (some q))]
    · -- in-memory hit: nothing changes
      have hout : processAfterDiskMiss fid
          (info.original_filename.getD "Unknown File") info disk cf =
          ⟨fid, info.original_filename.getD "Unknown File", m, info, disk⟩ := by
        unfold processAfterDiskMiss; rw [hm]
      rw [hout]
      show (process_single_ifc_file fid info disk cf).table = m
      rw [process_tier1_miss fid info disk cf ht, hout]
  · -- persisted hit: the pickle is re-read unchanged by the second call
    rcases tier1_some_inv info disk t ht with ⟨cp, hc, hcp, hl⟩
    rw [process_tier1_hit fid info disk cf cp t hc hcp hl]
    show (process_single_ifc_file fid
        { info with processed_data_df := some t } disk cf).table = t
    rw [process_tier1_hit fid { info with processed_data_df := some t }
      disk cf cp t hc hcp hl]

/-- C8: when the fresh-extraction tier runs, the resulting table is
attached to the file record in memory; an empty table leaves durable
storage untouched, while a non-empty table is pickled under the key
derived deterministically from the file id. -/
theorem fresh_extraction_persistence_policy (fid : String) (info : FileInfo)
    (disk : Disk) (cf fp : String) (f : IfcFile)
    (h1 : tier1Persisted info disk = none)
    (h2 : info.processed_data_df = none)
    (h3 : info.saved_path = some fp) (h4 : fp ≠ "")
    (h5 : lookupK disk.ifc fp = some f) :
    (process_single_ifc_file fid info disk cf).table =
        extract_properties_from_ifc f ∧
    (process_single_ifc_file fid info disk cf).info.processed_data_df =
        some (extract_properties_from_ifc f) ∧
    (extract_properties_from_ifc f = [] →
      (process_single_ifc_file fid info disk cf).disk = disk) ∧
    (extract_properties_from_ifc f ≠ [] →
      (process_single_ifc_file fid info disk cf).disk.pickles =
        setK disk.pickles (cachePicklePath cf fid)
          (some (extract_properties_from_ifc f)) ∧
      (process_single_ifc_file fid info disk cf).info.cached_df_path =
        some (cachePicklePath cf fid)) := by
  rw [process_tier1_miss fid info disk cf h1]
  unfold processAfterDiskMiss
  rw [h2, h3]
  simp only [ne_eq, h4, not_false_eq_true, if_true, h5]
  by_cases he : (extract_properties_from_ifc f).isEmpty
  · have he2 : extract_properties_from_ifc f = [] := by
      simpa [List.isEmpty_iff] using he
    simp [he, he2]
  · have he2 : extract_properties_from_ifc f ≠ [] := by
      simpa [List.isEmpty_iff] using he
    simp [he, he2]

/-- Witness for C8 at the uploaded sample file (non-empty extraction). -/
theorem fresh_extraction_persistence_policy_witness :
    (process_single_ifc_file "id-A" sampleFileInfo sampleDisk "cache").table =
        extract_properties_from_ifc sampleIfcFile ∧
    (process_single_ifc_file "id-A" sampleFileInfo sampleDisk
        "cache").info.processed_data_df =
        some (extract_properties_from_ifc sampleIfcFile) ∧
    (extract_properties_from_ifc sampleIfcFile = [] →
      (process_single_ifc_file "id-A" sampleFileInfo sampleDisk "cache").disk =
        sampleDisk) ∧
    (extract_properties_from_ifc sampleIfcFile ≠ [] →
      (process_single_ifc_file "id-A" sampleFileInfo sampleDisk
          "cache").disk.pickles =
        setK sampleDisk.pickles (cachePicklePath "cache" "id-A")
          (some (extract_properties_from_ifc sampleIfcFile)) ∧
      (process_single_ifc_file "id-A" sampleFileInfo sampleDisk
          "cache").info.cached_df_path =
        some (cachePicklePath "cache" "id-A")) :=
  fresh_extraction_persistence_policy "id-A" sampleFileInfo sampleDisk "cache"
    "uploads/sample.ifc" sampleIfcFile (by decide) rfl rfl (by decide) (by decide)

/-- C2, counterexample: the property extractor reports an unopenable file
as a plain empty table — exactly the value a successful extraction of a
model with no elements returns — so the open failure is not an explicit
typed failure distinguishable from a successful (possibly empty) table
result. -/
theorem open_failure_indistinguishable_cex :
    unreadableIfcFile.openResult = none ∧
    emptyElementsIfcFile.openResult.isSome = true ∧
    extract_properties_from_ifc unreadableIfcFile =
      extract_properties_from_ifc emptyElementsIfcFile ∧
    extract_properties_from_ifc unreadableIfcFile = [] :=
  ⟨rfl, rfl, rfl, rfl⟩

/-- C2, amended: for every path whose model file cannot be opened, the
property extractor catches the failure (it never crashes), performs no
further extraction for that file, and returns an empty table — a value
indistinguishable from a successful zero-row result, not a distinct typed
failure. -/
theorem open_failure_yields_empty_table (f : IfcFile)
    (h : f.openResult = none) :
    extract_properties_from_ifc f = [] := by
  unfold extract_properties_from_ifc
  rw [h]

/-- Witness for the amended C2 at the unreadable file. -/
theorem open_failure_yields_empty_table_witness :
    unreadableIfcFile.openResult = none ∧
    extract_properties_from_ifc unreadableIfcFile = [] :=
  ⟨rfl, open_failure_yields_empty_table unreadableIfcFile rfl⟩

/-- C3: in every reachable state of the task tracker, a completed
ParsingTask has both artifact locations populated (non-empty paths), and a
failed ParsingTask has neither populated. -/
theorem completed_has_artifacts_failed_has_none (e : TaskEntry)
    (h : ReachableTask e) :
    (e.status = .completed →
      ∃ c j, e.result = some (c, j) ∧ c ≠ "" ∧ j ≠ "") ∧
    (e.status = .failed → e.result = none) := by
  cases h with
  | uploaded =>
    refine ⟨fun h2 => ?_, fun h2 => rfl⟩
    simp [initTaskEntry] at h2
  | started =>
    refine ⟨fun h2 => ?_, fun h2 => rfl⟩
    simp [startTask, initTaskEntry] at h2
  | finished outcome =>
    cases outcome with
    | error msg =>
      refine ⟨fun h2 => ?_, fun h2 => rfl⟩
      simp [parse_ifc_file_async, finishTask, startTask, initTaskEntry] at h2
    | ok pair =>
      obtain ⟨oc, oj⟩ := pair
      cases oc with
      | none =>
        refine ⟨fun h2 => ?_, fun h2 => rfl⟩
        simp [parse_ifc_file_async, finishTask, startTask, initTaskEntry] at h2
      | some c =>
        cases oj with
        | none =>
          refine ⟨fun h2 => ?_, fun h2 => rfl⟩
          simp [parse_ifc_file_async, finishTask, startTask, initTaskEntry] at h2
        | some j =>
          by_cases hcj : c ≠ "" ∧ j ≠ ""
          · refine ⟨fun h2 => ?_, fun h2 => ?_⟩
            · refine ⟨relpathFromBackend c, relpathFromBackend j, ?_, hcj.1, hcj.2⟩
              show (parse_ifc_file_async initTaskEntry
                  (.ok (some c, some j))).result =
                some (relpathFromBackend c, relpathFromBackend j)
              simp [parse_ifc_file_async, finishTask, startTask, hcj]
            · simp [parse_ifc_file_async, finishTask, startTask, hcj] at h2
          · refine ⟨fun h2 => ?_, fun h2 => ?_⟩
            · simp [parse_ifc_file_async, finishTask, startTask, hcj] at h2
            · show (parse_ifc_file_async initTaskEntry
                  (.ok (some c, some j))).result = none
              simp [parse_ifc_file_async, finishTask, startTask, initTaskEntry, hcj]

/-- Witness for C3 at a concrete finished task with both artifacts. -/
theorem completed_has_artifacts_failed_has_none_witness :
    ((parse_ifc_file_async initTaskEntry
        (.ok (some "cache/a.csv", some "cache/a.json"))).status = .completed →
      ∃ c j, (parse_ifc_file_async initTaskEntry
          (.ok (some "cache/a.csv", some "cache/a.json"))).result = some (c, j) ∧
        c ≠ "" ∧ j ≠ "") ∧
    ((parse_ifc_file_async initTaskEntry
        (.ok (some "cache/a.csv", some "cache/a.json"))).status = .failed →
      (parse_ifc_file_async initTaskEntry
          (.ok (some "cache/a.csv", some "cache/a.json"))).result = none) :=
  completed_has_artifacts_failed_has_none _ (ReachableTask.finished _)

/-- A removed path is gone. -/
theorem not_mem_fsRemove_self (fs : FS) (p : String) : p ∉ fsRemove fs p := by
  simp [fsRemove]

/-- Removal never adds a path. -/
theorem mem_of_mem_fsRemove {fs : FS} {p q : String}
    (h : q ∈ fsRemove fs p) : q ∈ fs :=
  List.mem_of_mem_filter h

/-- C10: artifact writing is all-or-nothing — if saving either durable
artifact fails, any artifact file for that id is removed from the
filesystem, no artifact location is returned, and feeding that outcome to
the task worker marks the ParsingTask failed with neither location
recorded. -/
theorem artifact_write_all_or_nothing (f : IfcFile) (outDir fid : String)
    (fs : FS) (env : SaveEnv)
    (hne : (extract_properties_from_ifc f).isEmpty = false)
    (hdir : env.dirExists = true ∨ env.mkdirFails = false)
    (hfail : env.csvWriteFails = true ∨ env.jsonWriteFails = true) :
    (parse_ifc_to_files f outDir fid fs env).1 = (none, none) ∧
    csvArtifactPath outDir fid ∉ (parse_ifc_to_files f outDir fid fs env).2 ∧
    jsonArtifactPath outDir fid ∉ (parse_ifc_to_files f outDir fid fs env).2 ∧
    (parse_ifc_file_async initTaskEntry
        (.ok (parse_ifc_to_files f outDir fid fs env).1)).status = .failed ∧
    (parse_ifc_file_async initTaskEntry
        (.ok (parse_ifc_to_files f outDir fid fs env).1)).result = none := by
  have hmk : (!env.dirExists && env.mkdirFails) = false := by
    rcases hdir with h | h <;> simp [h]
  have hres : ∃ fs1 : FS,
      parse_ifc_to_files f outDir fid fs env =
        ((none, none),
          fsRemove (fsRemove fs1 (csvArtifactPath outDir fid))
            (jsonArtifactPath outDir fid)) := by
    unfold parse_ifc_to_files
    simp only [hne, Bool.false_eq_true, if_false, hmk]
    cases hcsv : env.csvWriteFails with
    | true => exact ⟨_, rfl⟩
    | false =>
      cases hjson : env.jsonWriteFails with
      | true => exact ⟨_, rfl⟩
      | false =>
        rcases hfail with h | h
        · rw [hcsv] at h; cases h
        · rw [hjson] at h; cases h
  rcases hres with ⟨fs1, hres⟩
  rw [hres]
  refine ⟨rfl, ?_, ?_, rfl, rfl⟩
  · intro hmem
    exact not_mem_fsRemove_self fs1 (csvArtifactPath outDir fid)
      (mem_of_mem_fsRemove hmem)
  · exact not_mem_fsRemove_self _ (jsonArtifactPath outDir fid)

/-- Witness for C10: the sample file with a failing CSV write that leaves
a partial file behind. -/
theorem artifact_write_all_or_nothing_witness :
    (parse_ifc_to_files sampleIfcFile "cache" "id-A" []
        ⟨true, false, true, true, false, false⟩).1 = (none, none) ∧
    csvArtifactPath "cache" "id-A" ∉
      (parse_ifc_to_files sampleIfcFile "cache" "id-A" []
        ⟨true, false, true, true, false, false⟩).2 ∧
    jsonArtifactPath "cache" "id-A" ∉
      (parse_ifc_to_files sampleIfcFile "cache" "id-A" []
        ⟨true, false, true, true, false, false⟩).2 ∧
    (parse_ifc_file_async initTaskEntry
        (.ok (parse_ifc_to_files sampleIfcFile "cache" "id-A" []
          ⟨true, false, true, true, false, false⟩).1)).status = .failed ∧
    (parse_ifc_file_async initTaskEntry
        (.ok (parse_ifc_to_files sampleIfcFile "cache" "id-A" []
          ⟨true, false, true, true, false, false⟩).1)).result = none :=
  artifact_write_all_or_nothing sampleIfcFile "cache" "id-A" []
    ⟨true, false, true, true, false, false⟩ (by decide) (Or.inl rfl) (Or.inl rfl)

/-- C7: `extract_data` over a batch of one completed id and one unknown id
returns a success response containing exactly the completed id's rows,
each tagged with that file's display name, counts one contributing file
when the table is non-empty, and skips the unknown id with a logged
diagnostic omitted from the result — it does not raise. -/
theorem extract_data_completed_plus_unknown (st : AppState) (cf c u : String)
    (entry : TaskEntry) (info : FileInfo)
    (hc1 : lookupK st.parsingStatus c = some entry)
    (hc2 : entry.status = .completed)
    (hc3 : lookupK st.filesMeta c = some info)
    (hu : lookupK st.parsingStatus u = none) :
    extract_data [c, u] st cf =
      ⟨true,
        (process_single_ifc_file c info st.disk cf).table.map
          (fun r => ⟨r, (process_single_ifc_file c info st.disk cf).filename⟩),
        (if (process_single_ifc_file c info st.disk cf).table.isEmpty
          then 0 else 1),
        [u],
        { st with
          filesMeta := setK st.filesMeta c
            (process_single_ifc_file c info st.disk cf).info
          disk := (process_single_ifc_file c info st.disk cf).disk }⟩ := by
  unfold extract_data
  simp only [List.isEmpty_cons, if_false, Bool.false_eq_true]
  have hstep1 : extractDataStep cf ([], [], st) c =
      ([(c, (process_single_ifc_file c info st.disk cf).filename,
          (process_single_ifc_file c info st.disk cf).table)], [],
        { st with
          filesMeta := setK st.filesMeta c
            (process_single_ifc_file c info st.disk cf).info
          disk := (process_single_ifc_file c info st.disk cf).disk }) := by
    unfold extractDataStep
    simp [hc1, hc2, hc3]
  have hstep2 : extractDataStep cf
      ([(c, (process_single_ifc_file c info st.disk cf).filename,
          (process_single_ifc_file c info st.disk cf).table)], [],
        { st with
          filesMeta := setK st.filesMeta c
            (process_single_ifc_file c info st.disk cf).info
          disk := (process_single_ifc_file c info st.disk cf).disk }) u =
      ([(c, (process_single_ifc_file c info st.disk cf).filename,
          (process_single_ifc_file c info st.disk cf).table)], [u],
        { st with
          filesMeta := setK st.filesMeta c
            (process_single_ifc_file c info st.disk cf).info
          disk := (process_single_ifc_file c info st.disk cf).disk }) := by
    unfold extractDataStep
    have hu2 : lookupK
        ({ st with
          filesMeta := setK st.filesMeta c
            (process_single_ifc_file c info st.disk cf).info
          disk := (process_single_ifc_file c info st.disk cf).disk } :
            AppState).parsingStatus u = none := hu
    simp [hu2]
  show (let x := List.foldl (extractDataStep cf) ([], [], st) [c, u]
        let y := List.foldl combineResults ([], 0) x.1
        (⟨true, y.1, y.2, x.2.1, x.2.2⟩ : ExtractResult)) = _
  rw [List.foldl_cons, hstep1, List.foldl_cons, hstep2, List.foldl_nil]
  by_cases hq : (process_single_ifc_file c info st.disk cf).table.isEmpty
  · have hq2 : (process_single_ifc_file c info st.disk cf).table = [] := by
      simpa [List.isEmpty_iff] using hq
    simp [combineResults, hq, hq2]
  · simp [combineResults, hq]

/-- Witness for C7 on the sample application state with id-A completed and
an unknown id. -/
theorem extract_data_completed_plus_unknown_witness :
    extract_data ["id-A", "unknown-id"] sampleAppState "cache" =
      ⟨true,
        (process_single_ifc_file "id-A" sampleFileInfo sampleAppState.disk
            "cache").table.map
          (fun r => ⟨r, (process_single_ifc_file "id-A" sampleFileInfo
              sampleAppState.disk "cache").filename⟩),
        (if (process_single_ifc_file "id-A" sampleFileInfo
            sampleAppState.disk "cache").table.isEmpty then 0 else 1),
        ["unknown-id"],
        { sampleAppState with
          filesMeta := setK sampleAppState.filesMeta "id-A"
            (process_single_ifc_file "id-A" sampleFileInfo
              sampleAppState.disk "cache").info
          disk := (process_single_ifc_file "id-A" sampleFileInfo
            sampleAppState.disk "cache").disk }⟩ :=
  extract_data_completed_plus_unknown sampleAppState "cache" "id-A"
    "unknown-id" ⟨.completed, some ("cache/id-A.csv", "cache/id-A.json"), none⟩
    sampleFileInfo (by decide) rfl (by decide) (by decide)

end IFCAtom
